import Mathlib

/-!
Verification of the PointText primitive from src/src/text/PointText.js
(paper.js). The embedding uses exact rationals for the JavaScript numbers,
so all geometric equalities below are exact. External collaborators that
are not part of src (the affine Matrix, the Style record, the measuring
View, the DOM measurement host) are embedded as explicit data or as
function parameters, following the contracts stated in the specification;
every such definition carries a doc comment starting with
`Modelled from the spec:`.
-/

namespace PointTextVerify

/-- A 2D point with rational coordinates (collaborator of PointText). -/
structure Point where
  x : ℚ
  y : ℚ
deriving DecidableEq, Repr

/-- A rectangle given by origin, width and height (collaborator). -/
structure Rectangle where
  x : ℚ
  y : ℚ
  width : ℚ
  height : ℚ
deriving DecidableEq, Repr

/-- Modelled from the spec: the affine transform owned by the node.
The translation component is the pair (tx, ty); a, b, c, d form the
linear (rotation/scale/shear) part. -/
structure Matrix where
  a : ℚ
  b : ℚ
  c : ℚ
  d : ℚ
  tx : ℚ
  ty : ℚ
deriving DecidableEq, Repr

/-- Modelled from the spec: Transform.getTranslation returns the
translation component of the transform as a point. -/
def Matrix.getTranslation (m : Matrix) : Point :=
  ⟨m.tx, m.ty⟩

/-- Modelled from the spec: translateBy applies a relative translation to
the transform, leaving the rotation/scale part untouched (prepending a
pure translation to an affine map adds the delta to tx, ty and leaves
a, b, c, d unchanged). -/
def Matrix.translate (m : Matrix) (delta : Point) : Matrix :=
  { m with tx := m.tx + delta.x, ty := m.ty + delta.y }

/-- Modelled from the spec: the shared style record consumed by
PointText. Paint presence is abstracted to the two booleans the code
reads through hasFill and hasStroke. -/
structure Style where
  fontFamily : String
  fontWeight : String
  fontSize : ℚ
  leading : ℚ
  justification : String
  fillPaint : Bool
  strokePaint : Bool
  strokeWidth : ℚ
deriving DecidableEq, Repr

/-- Modelled from the spec: Style.hasFill reports whether a fill paint
is set. -/
def Style.hasFill (s : Style) : Bool := s.fillPaint

/-- Modelled from the spec: Style.hasStroke reports whether a stroke
paint is set. -/
def Style.hasStroke (s : Style) : Bool := s.strokePaint

/-- Modelled from the spec: Style.getLeading returns the leading. -/
def Style.getLeading (s : Style) : ℚ := s.leading

/-- Modelled from the spec: Style.getJustification returns the
justification string. -/
def Style.getJustification (s : Style) : String := s.justification

/-- Modelled from the spec: the composed font style string built from
weight, size and family, used as the key of the metrics width lookup. -/
def Style.getFontStyle (s : Style) : String :=
  s.fontWeight ++ " " ++ s.fontFamily

/-- Splits a character sequence at every newline character, keeping the
characters accumulated so far (in reverse) as the current segment. -/
def splitLinesAux : List Char → List Char → List (List Char)
  | [], acc => [acc.reverse]
  | c :: rest, acc =>
    if c = '\n' then acc.reverse :: splitLinesAux rest []
    else splitLinesAux rest (c :: acc)

/-- Modelled from the spec: TextItem derives the ordered line store from
the raw content by splitting on line-break characters; empty content
yields zero lines. -/
def splitLines (content : String) : List String :=
  if content = "" then []
  else (splitLinesAux content.toList []).map (fun cs => String.mk cs)

/-- The PointText node: raw content, the derived line store, the owned
transform and the shared style, as read by the functions of
src/src/text/PointText.js. -/
structure PointText where
  _content : String
  _matrix : Matrix
  _style : Style
deriving DecidableEq, Repr

/-- The derived line store of a node. -/
def PointText._lines (t : PointText) : List String :=
  splitLines t._content

/-- Modelled from the spec: the view the node is attached to; its only
operation used here is the font-metrics paragraph width lookup
getTextWidth(fontStyle, lines). -/
structure View where
  getTextWidth : String → List String → ℚ

/-- getPoint from the source: reads the translation component of
the matrix and returns it as a fresh point value. -/
def PointText.getPoint (t : PointText) : Point :=
  t._matrix.getTranslation

/-- setPoint from the source: translates the node by the difference
between the requested point and the current translation of the matrix. -/
def PointText.setPoint (t : PointText) (point : Point) : PointText :=
  let delta : Point := ⟨point.x - t._matrix.getTranslation.x,
                        point.y - t._matrix.getTranslation.y⟩
  { t with _matrix := t._matrix.translate delta }

/-- _getMeasuredTextSize from the source: metrics width for the whole
paragraph, justification offset on x, -0.75 * leading baseline guess on
y when there is at least one line, height = numLines * leading. -/
def PointText._getMeasuredTextSize (view : View) (t : PointText) : Rectangle :=
  let style := t._style
  let lines := t._lines
  let numLines := lines.length
  let justification := style.getJustification
  let leading := style.getLeading
  let width := view.getTextWidth style.getFontStyle lines
  let x : ℚ := 0
  let x := if justification ≠ "left" then
      x - width / (if justification = "center" then 2 else 1)
    else x
  ⟨x, if numLines ≠ 0 then -(0.75 : ℚ) * leading else 0,
   width, (numLines : ℚ) * leading⟩

/-- Modelled from the spec: the native bounding box read back from the
measurement host (svg.getBBox in the source). -/
structure BBox where
  x : ℚ
  y : ℚ
  width : ℚ
  height : ℚ
deriving DecidableEq, Repr

/-- Modelled from the spec: the failure of the exact-measurement step
(the host could not be created or measured). -/
inductive MeasureError where
  | hostFailure (msg : String)
deriving DecidableEq, Repr

/-- Modelled from the spec: outcome of asking the environment to measure
the text markup: either the native bounding box, or a host failure that
the source code lets escape (svg.getBBox may throw). -/
abbrev MeasureOutcome : Type := Except MeasureError BBox

/-- State of the transient measurement host: whether the hidden element
is currently attached to the document body. -/
structure HostState where
  attached : Bool
deriving DecidableEq, Repr

/-- The try/finally block of _getDrawnTextSize. The body attaches the
hidden element to the document body and asks for the bounding box, which
may fail; the finally clause detaches the element on both paths and the
failure, when there is one, is passed through untouched. -/
def measureWithCleanup (outcome : MeasureOutcome) :
    Except MeasureError BBox × HostState :=
  let afterAppend : HostState := ⟨true⟩
  let bodyResult : Except MeasureError BBox := outcome
  let afterRemove : HostState := { afterAppend with attached := false }
  (bodyResult, afterRemove)

/-- _getDrawnTextSize from the source: build the svg markup, measure it
inside a try/finally that always detaches the hidden element, then pad
the bbox by half the stroke width on each side, shift x by the
justification correction computed from the metrics width, and return
Rectangle(x, y, width + 1, max(height, numLines * leading)). The
measurement outcome is the environment input; a failure propagates. -/
def PointText._getDrawnTextSize (view : View) (outcome : MeasureOutcome)
    (t : PointText) : Except MeasureError Rectangle × HostState :=
  let style := t._style
  let lines := t._lines
  let numLines := lines.length
  let leading := style.getLeading
  let justification := style.getJustification
  let (measured, host) := measureWithCleanup outcome
  match measured with
  | Except.error e => (Except.error e, host)
  | Except.ok bbox =>
    let halfStrokeWidth := style.strokeWidth / 2
    let width := bbox.width + halfStrokeWidth * 2
    let height := bbox.height + halfStrokeWidth * 2
    let x := bbox.x - halfStrokeWidth
    let y := bbox.y - halfStrokeWidth
    let x := if justification ≠ "left" then
        let eltWidth := view.getTextWidth style.getFontStyle lines
        x - eltWidth / (if justification = "center" then 2 else 1)
      else x
    (Except.ok ⟨x, y, width + 1, max height ((numLines : ℚ) * leading)⟩, host)

/-- _hitTestSelf from the source: a fill hit exactly when fill testing is
requested, the node has a fill paint or unfilled testing was opted into,
and the containment test (engine-defined, a parameter here) accepts the
point. Stroke-only queries fall through to none. -/
structure HitOptions where
  fill : Bool
  hitUnfilledPaths : Bool
deriving DecidableEq, Repr

/-- The hit result constructed by _hitTestSelf (HitResult with kind
string in the source). -/
structure HitResult where
  kind : String
deriving DecidableEq, Repr

/-- _hitTestSelf from the source. -/
def PointText._hitTestSelf (t : PointText) (contains : Point → Bool)
    (point : Point) (options : HitOptions) : Option HitResult :=
  if options.fill && (t._style.hasFill || options.hitUnfilledPaths)
      && contains point then
    some ⟨"fill"⟩
  else
    none

/-- Kind of a paint operation issued by _draw. -/
inductive PaintKind where
  | fill
  | stroke
deriving DecidableEq, Repr

/-- A paint operation recorded with the line index and the shadow color
that was in force on the surface at the moment the glyphs were drawn. -/
structure PaintEvent where
  lineIndex : Nat
  kind : PaintKind
  shadow : String
deriving DecidableEq, Repr

/-- Modelled from the spec: the slice of surface state that the per-line
shadow protocol touches: the current shadow color, the accumulated local
translation of the draw cursor, and the trace of paint operations. -/
structure Ctx where
  shadowColor : String
  translationY : ℚ
  events : List PaintEvent
deriving DecidableEq, Repr

/-- The transparent shadow color the source assigns after a fill. -/
def transparentShadow : String := "rgba(0,0,0,0)"

/-- One iteration of the line loop of _draw: restore the ambient shadow,
fill (then clear the shadow) when a fill paint is set, stroke when a
stroke paint is set, then advance the cursor by the leading. -/
def drawLineStep (hasFill hasStroke : Bool) (ambient : String)
    (leading : ℚ) (i : Nat) (ctx : Ctx) : Ctx :=
  let ctx := { ctx with shadowColor := ambient }
  let ctx := if hasFill then
      let ctx := { ctx with
        events := ctx.events ++ [(⟨i, PaintKind.fill, ctx.shadowColor⟩ : PaintEvent)] }
      { ctx with shadowColor := transparentShadow }
    else ctx
  let ctx := if hasStroke then
      { ctx with
        events := ctx.events ++ [(⟨i, PaintKind.stroke, ctx.shadowColor⟩ : PaintEvent)] }
    else ctx
  { ctx with translationY := ctx.translationY + leading }

/-- _draw from the source: no-op on empty content; otherwise capture the
ambient shadow color once and run the line loop over every line in
order. Only the shadow/translate/paint interaction is traced; font and
alignment assignment touch no traced state. -/
def PointText._draw (t : PointText) (ctx : Ctx) : Ctx :=
  if t._content = "" then ctx
  else
    let style := t._style
    let hasFill := style.hasFill
    let hasStroke := style.hasStroke
    let leading := style.getLeading
    let shadowColor := ctx.shadowColor
    (List.range t._lines.length).foldl
      (fun c i => drawLineStep hasFill hasStroke shadowColor leading i c) ctx

/-- The paint operations one line contributes, as a function of the
ambient shadow and which paints are set; used to characterize the trace
of _draw. -/
def lineEvents (hasFill hasStroke : Bool) (ambient : String) (i : Nat) :
    List PaintEvent :=
  (if hasFill then [(⟨i, PaintKind.fill, ambient⟩ : PaintEvent)] else []) ++
  (if hasStroke then
    [(⟨i, PaintKind.stroke, if hasFill then transparentShadow else ambient⟩ : PaintEvent)]
   else [])

/-- getPoint as a state transition: the pair of the returned derived
point and the node afterwards. The source allocates a fresh LinkedPoint
from the translation on every call. -/
def PointText.getPointOp (t : PointText) : Point × PointText :=
  (t.getPoint, t)

/-- Modelled from the spec: the point handed back by getPoint is a plain
derived value; mutating it just computes a new point value and involves
no node state (the only write path is the explicit setter). -/
def mutateReturnedPoint (f : Point → Point) (p : Point) : Point :=
  f p

/-! ## Concrete instances used by witnesses and counterexamples -/

/-- A view whose metrics width lookup always answers 10. -/
def wView : View := ⟨fun _ _ => 10⟩

/-- A node with a single line of content and right justification. -/
def wNodeRight : PointText :=
  ⟨"AB", ⟨1, 0, 0, 1, 0, 0⟩, ⟨"serif", "normal", 10, 12, "right", true, false, 0⟩⟩

/-! ## Claim theorems -/

/-- C1: _getMeasuredTextSize returns Rectangle(x, y, width, height) with
width the metrics-measured paragraph width, x = 0 for left
justification, x = -width for right, x = -width / 2 for center,
y = -0.75 * leading when there is at least one line and 0 otherwise,
and height = numLines * leading. -/
theorem measured_text_size_spec (view : View) (t : PointText) :
    (PointText._getMeasuredTextSize view t).width
        = view.getTextWidth t._style.getFontStyle t._lines ∧
    (t._style.justification = "left" →
      (PointText._getMeasuredTextSize view t).x = 0) ∧
    (t._style.justification = "right" →
      (PointText._getMeasuredTextSize view t).x
        = -(view.getTextWidth t._style.getFontStyle t._lines)) ∧
    (t._style.justification = "center" →
      (PointText._getMeasuredTextSize view t).x
        = -(view.getTextWidth t._style.getFontStyle t._lines) / 2) ∧
    (t._lines.length ≠ 0 →
      (PointText._getMeasuredTextSize view t).y
        = -(0.75 : ℚ) * t._style.leading) ∧
    (t._lines.length = 0 → (PointText._getMeasuredTextSize view t).y = 0) ∧
    (PointText._getMeasuredTextSize view t).height
        = (t._lines.length : ℚ) * t._style.leading := by
  refine ⟨rfl, ?_, ?_, ?_, ?_, ?_, rfl⟩
  · intro h
    simp [PointText._getMeasuredTextSize, Style.getJustification, h]
  · intro h
    simp [PointText._getMeasuredTextSize, Style.getJustification, h]
  · intro h
    simp [PointText._getMeasuredTextSize, Style.getJustification, h]
    ring
  · intro h
    simp [PointText._getMeasuredTextSize, Style.getLeading, h]
  · intro h
    simp [PointText._getMeasuredTextSize, Style.getLeading, h]

/-- Witness for C1 at a concrete right-justified node whose metrics
width is 10: the horizontal offset is the negated width. -/
theorem measured_text_size_spec_witness :
    (PointText._getMeasuredTextSize wView wNodeRight).x = -10 :=
  (measured_text_size_spec wView wNodeRight).2.2.1 rfl

/-- C5: setPoint applies only the relative translation p minus the
current translation, leaving the rotation/scale components of the
transform unchanged, and immediately afterwards getPoint returns p
exactly. -/
theorem set_point_roundtrip (t : PointText) (p : Point) :
    (t.setPoint p).getPoint = p ∧
    (t.setPoint p)._matrix.a = t._matrix.a ∧
    (t.setPoint p)._matrix.b = t._matrix.b ∧
    (t.setPoint p)._matrix.c = t._matrix.c ∧
    (t.setPoint p)._matrix.d = t._matrix.d := by
  refine ⟨?_, rfl, rfl, rfl, rfl⟩
  obtain ⟨px, py⟩ := p
  simp [PointText.setPoint, PointText.getPoint, Matrix.translate,
    Matrix.getTranslation]

/-- C9: the point returned by getPoint is a derived value: the getPoint
call leaves the node untouched, mutating the returned value is pure
computation over the value, and the transform changes only through
setPoint (which sets the translation to the requested point). -/
theorem get_point_derived_value (t : PointText) (f : Point → Point)
    (p : Point) :
    (PointText.getPointOp t).2 = t ∧
    mutateReturnedPoint f (PointText.getPointOp t).1 = f t.getPoint ∧
    ((t.setPoint p)._matrix).getTranslation = p := by
  refine ⟨rfl, rfl, ?_⟩
  obtain ⟨px, py⟩ := p
  simp [PointText.setPoint, Matrix.translate, Matrix.getTranslation]

/-- C8: _hitTestSelf returns the fill hit result exactly when fill
testing is requested, the node has a fill paint or unfilled testing was
opted into, and the containment test accepts the point; stroke-only
queries (no fill testing) return nothing. -/
theorem hit_test_self_spec (t : PointText) (contains : Point → Bool)
    (point : Point) (options : HitOptions) :
    (t._hitTestSelf contains point options = some ⟨"fill"⟩ ↔
      options.fill = true ∧
        (t._style.hasFill = true ∨ options.hitUnfilledPaths = true) ∧
        contains point = true) ∧
    (options.fill = false →
      t._hitTestSelf contains point options = none) := by
  cases hf : options.fill <;> cases hu : options.hitUnfilledPaths <;>
    cases hsf : t._style.hasFill <;> cases hc : contains point <;>
      simp [PointText._hitTestSelf, hf, hu, hsf, hc]

/-- Witness for C8: a stroke-only query (fill testing off) on a concrete
node returns nothing. -/
theorem hit_test_self_spec_witness :
    PointText._hitTestSelf wNodeRight (fun _ => true) ⟨0, 0⟩
      ⟨false, true⟩ = none :=
  (hit_test_self_spec wNodeRight (fun _ => true) ⟨0, 0⟩ ⟨false, true⟩).2 rfl

/-- C4: _getDrawnTextSize detaches the transient measurement host on
every exit path, and a measurement failure is propagated to the caller
as the same error, never silently replaced by a successful rectangle. -/
theorem drawn_cleanup_and_propagation (view : View) (t : PointText)
    (outcome : MeasureOutcome) :
    (PointText._getDrawnTextSize view outcome t).2.attached = false ∧
    (∀ e, outcome = Except.error e →
      (PointText._getDrawnTextSize view outcome t).1 = Except.error e) := by
  constructor
  · cases outcome <;> rfl
  · intro e he
    subst he
    rfl

/-- Witness for C4: a concrete failing measurement is propagated and the
host is detached. -/
theorem drawn_cleanup_and_propagation_witness :
    (PointText._getDrawnTextSize wView
        (Except.error (MeasureError.hostFailure "getBBox failed"))
        wNodeRight).1
      = Except.error (MeasureError.hostFailure "getBBox failed") :=
  (drawn_cleanup_and_propagation wView wNodeRight
      (Except.error (MeasureError.hostFailure "getBBox failed"))).2
    (MeasureError.hostFailure "getBBox failed") rfl

/-- A concrete raw bounding box used by the stroke-growth refutation. -/
def cBBox : BBox := ⟨0, 0, 5, 0⟩

/-- A one-line left-justified node with the given stroke width. -/
def cNode3 (sw : ℚ) : PointText :=
  ⟨"A", ⟨1, 0, 0, 1, 0, 0⟩, ⟨"serif", "normal", 10, 12, "left", true, true, sw⟩⟩

/-- The node with its stroke width replaced, all other state fixed. -/
def withStrokeWidth (t : PointText) (sw : ℚ) : PointText :=
  { t with _style := { t._style with strokeWidth := sw } }

/-- A node whose justification carries an unrecognized value. -/
def uNode : PointText :=
  ⟨"AB", ⟨1, 0, 0, 1, 0, 0⟩,
   ⟨"serif", "normal", 10, 12, "justify", true, false, 0⟩⟩

/-- Evaluation of the drawn size at the concrete one-line node with
stroke width 0: the raw bbox is 5 wide and 0 tall, so the width is
5 + 0 + 1 and the height is clamped up to 1 * leading = 12. -/
theorem drawn_eval_sw0 :
    (PointText._getDrawnTextSize wView (Except.ok cBBox) (cNode3 0)).1
      = Except.ok ⟨0, 0, 6, 12⟩ := by
  have hl : (cNode3 0)._lines = ["A"] := by decide
  have hst : (cNode3 0)._style
      = ⟨"serif", "normal", 10, 12, "left", true, true, 0⟩ := rfl
  norm_num [PointText._getDrawnTextSize, measureWithCleanup, hl, hst,
    cBBox, Style.getJustification, Style.getLeading, max_def]

/-- Evaluation of the drawn size at the same node with stroke width 1:
the width grows by 1 but the height stays clamped at 12. -/
theorem drawn_eval_sw1 :
    (PointText._getDrawnTextSize wView (Except.ok cBBox) (cNode3 1)).1
      = Except.ok ⟨-(1/2 : ℚ), -(1/2 : ℚ), 7, 12⟩ := by
  have hl : (cNode3 1)._lines = ["A"] := by decide
  have hst : (cNode3 1)._style
      = ⟨"serif", "normal", 10, 12, "left", true, true, 1⟩ := rfl
  norm_num [PointText._getDrawnTextSize, measureWithCleanup, hl, hst,
    cBBox, Style.getJustification, Style.getLeading, max_def]

/-- C2: on a successful measurement, _getDrawnTextSize expands the raw
bbox symmetrically by strokeWidth / 2 on each side, shifts x by the
justification correction computed from the metrics-based paragraph
width, and returns Rectangle(x, y, width + 1,
max(height, numLines * leading)). -/
theorem drawn_text_size_spec (view : View) (t : PointText) (bbox : BBox) :
    (t._style.justification = "left" →
      (PointText._getDrawnTextSize view (Except.ok bbox) t).1 = Except.ok
        ⟨bbox.x - t._style.strokeWidth / 2,
         bbox.y - t._style.strokeWidth / 2,
         bbox.width + 2 * (t._style.strokeWidth / 2) + 1,
         max (bbox.height + 2 * (t._style.strokeWidth / 2))
           ((t._lines.length : ℚ) * t._style.leading)⟩) ∧
    (t._style.justification = "right" →
      (PointText._getDrawnTextSize view (Except.ok bbox) t).1 = Except.ok
        ⟨bbox.x - t._style.strokeWidth / 2
            - view.getTextWidth t._style.getFontStyle t._lines,
         bbox.y - t._style.strokeWidth / 2,
         bbox.width + 2 * (t._style.strokeWidth / 2) + 1,
         max (bbox.height + 2 * (t._style.strokeWidth / 2))
           ((t._lines.length : ℚ) * t._style.leading)⟩) ∧
    (t._style.justification = "center" →
      (PointText._getDrawnTextSize view (Except.ok bbox) t).1 = Except.ok
        ⟨bbox.x - t._style.strokeWidth / 2
            - view.getTextWidth t._style.getFontStyle t._lines / 2,
         bbox.y - t._style.strokeWidth / 2,
         bbox.width + 2 * (t._style.strokeWidth / 2) + 1,
         max (bbox.height + 2 * (t._style.strokeWidth / 2))
           ((t._lines.length : ℚ) * t._style.leading)⟩) := by
  refine ⟨?_, ?_, ?_⟩ <;> intro h <;>
    simp [PointText._getDrawnTextSize, measureWithCleanup,
      Style.getJustification, Style.getLeading, h] <;>
    ring_nf <;> simp

/-- Witness for C2 at a concrete left-justified node. -/
theorem drawn_text_size_spec_witness :
    (PointText._getDrawnTextSize wView (Except.ok cBBox) (cNode3 0)).1
      = Except.ok
        ⟨cBBox.x - (cNode3 0)._style.strokeWidth / 2,
         cBBox.y - (cNode3 0)._style.strokeWidth / 2,
         cBBox.width + 2 * ((cNode3 0)._style.strokeWidth / 2) + 1,
         max (cBBox.height + 2 * ((cNode3 0)._style.strokeWidth / 2))
           (((cNode3 0)._lines.length : ℚ) * (cNode3 0)._style.leading)⟩ :=
  (drawn_text_size_spec wView (cNode3 0) cBBox).1 rfl

/-- C10: on a successful measurement the drawn rectangle has width at
least 1 + strokeWidth, hence strictly positive width whenever the stroke
width is nonnegative, even for empty or whitespace content. -/
theorem drawn_width_lower_bound (view : View) (t : PointText) (bbox : BBox)
    (r : Rectangle) (hw : 0 ≤ bbox.width)
    (h : (PointText._getDrawnTextSize view (Except.ok bbox) t).1
      = Except.ok r) :
    1 + t._style.strokeWidth ≤ r.width ∧
    (0 ≤ t._style.strokeWidth → 0 < r.width) := by
  simp [PointText._getDrawnTextSize, measureWithCleanup,
    Style.getJustification, Style.getLeading] at h
  subst h
  dsimp only
  constructor
  · linarith
  · intro hsw
    linarith

/-- Witness for C10 at a concrete node with an empty-ink bounding box. -/
theorem drawn_width_lower_bound_witness :
    1 + (cNode3 0)._style.strokeWidth ≤ (6 : ℚ) := by
  have h := (drawn_width_lower_bound wView (cNode3 0) cBBox ⟨0, 0, 6, 12⟩
    (by decide) drawn_eval_sw0).1
  simpa using h

/-- C3 fails on the code: with a raw bbox height below the line-advance
minimum, raising the stroke width from 0 to 1 leaves the drawn height
unchanged (the max clamps it), so the height does not grow by exactly 1. -/
theorem drawn_stroke_growth_counterexample :
    ¬ (∀ r0 r1 : Rectangle,
        (PointText._getDrawnTextSize wView (Except.ok cBBox) (cNode3 0)).1
          = Except.ok r0 →
        (PointText._getDrawnTextSize wView (Except.ok cBBox) (cNode3 1)).1
          = Except.ok r1 →
        r1.width - r0.width = 1 ∧ r1.height - r0.height = 1) := by
  intro hclaim
  have h := (hclaim ⟨0, 0, 6, 12⟩ ⟨-(1/2 : ℚ), -(1/2 : ℚ), 7, 12⟩
    drawn_eval_sw0 drawn_eval_sw1).2
  norm_num at h

/-- C3 amended: raising the stroke width from 0 to s > 0 grows the drawn
width by exactly s; it grows the drawn height by exactly s when the raw
bbox height is at least numLines * leading, and in general the height
growth lies between 0 and s. -/
theorem drawn_stroke_growth_amended (view : View) (t : PointText)
    (bbox : BBox) (s : ℚ) (hs : 0 < s) (r0 rs : Rectangle)
    (h0 : (PointText._getDrawnTextSize view (Except.ok bbox)
        (withStrokeWidth t 0)).1 = Except.ok r0)
    (h1 : (PointText._getDrawnTextSize view (Except.ok bbox)
        (withStrokeWidth t s)).1 = Except.ok rs) :
    rs.width - r0.width = s ∧
    ((t._lines.length : ℚ) * t._style.leading ≤ bbox.height →
      rs.height - r0.height = s) ∧
    0 ≤ rs.height - r0.height ∧ rs.height - r0.height ≤ s := by
  simp [PointText._getDrawnTextSize, measureWithCleanup, withStrokeWidth,
    PointText._lines, Style.getJustification, Style.getLeading] at h0 h1
  subst h0
  subst h1
  dsimp only
  have hb : splitLines t._content = t._lines := rfl
  rw [hb]
  set b := bbox.height with hbdef
  set m := ((t._lines.length : ℚ) * t._style.leading) with hmdef
  have A : b ⊔ m ≤ (b + s) ⊔ m :=
    sup_le_sup_right (by linarith) m
  have B : (b + s) ⊔ m ≤ (b ⊔ m) + s :=
    sup_le (by linarith [(le_sup_left : b ≤ b ⊔ m)])
      (by linarith [(le_sup_right : m ≤ b ⊔ m)])
  refine ⟨by ring, ?_, by linarith, by linarith⟩
  intro hmb
  rw [sup_eq_left.mpr hmb, sup_eq_left.mpr (by linarith : m ≤ b + s)]
  ring

/-- Witness for C3 amended at the concrete node of the refutation:
the width grows by exactly 1. -/
theorem drawn_stroke_growth_amended_witness :
    (7 : ℚ) - 6 = 1 := by
  have h0 : (PointText._getDrawnTextSize wView (Except.ok cBBox)
      (withStrokeWidth (cNode3 0) 0)).1 = Except.ok ⟨0, 0, 6, 12⟩ := by
    rw [show withStrokeWidth (cNode3 0) 0 = cNode3 0 from rfl]
    exact drawn_eval_sw0
  have h1 : (PointText._getDrawnTextSize wView (Except.ok cBBox)
      (withStrokeWidth (cNode3 0) 1)).1
      = Except.ok ⟨-(1/2 : ℚ), -(1/2 : ℚ), 7, 12⟩ := by
    rw [show withStrokeWidth (cNode3 0) 1 = cNode3 1 from rfl]
    exact drawn_eval_sw1
  have h := (drawn_stroke_growth_amended wView (cNode3 0) cBBox 1
    (by norm_num) ⟨0, 0, 6, 12⟩ ⟨-(1/2 : ℚ), -(1/2 : ℚ), 7, 12⟩ h0 h1).1
  simpa using h

/-- C6 fails on the code: an unrecognized justification value is not
treated as left; the measured horizontal offset at a node with
justification "justify" and metrics width 10 is -10, not 0. -/
theorem unknown_justification_counterexample :
    (PointText._getMeasuredTextSize wView uNode).x = -10 ∧
    ¬((-10 : ℚ) = 0) := by
  constructor
  · simp [PointText._getMeasuredTextSize, Style.getJustification, uNode,
      wView]
  · norm_num

/-- C6 amended: neither estimator fails on an unrecognized justification
value, but both treat it like right, not left: the measured offset is
the negated metrics width and the drawn rectangle is shifted by the full
metrics width. -/
theorem unknown_justification_amended (view : View) (t : PointText)
    (bbox : BBox) (h1 : t._style.justification ≠ "left")
    (h2 : t._style.justification ≠ "center") :
    (PointText._getMeasuredTextSize view t).x
      = -(view.getTextWidth t._style.getFontStyle t._lines) ∧
    (PointText._getDrawnTextSize view (Except.ok bbox) t).1
      = Except.ok
        ⟨bbox.x - t._style.strokeWidth / 2
            - view.getTextWidth t._style.getFontStyle t._lines,
         bbox.y - t._style.strokeWidth / 2,
         bbox.width + 2 * (t._style.strokeWidth / 2) + 1,
         max (bbox.height + 2 * (t._style.strokeWidth / 2))
           ((t._lines.length : ℚ) * t._style.leading)⟩ := by
  constructor
  · simp [PointText._getMeasuredTextSize, Style.getJustification, h1, h2]
  · simp [PointText._getDrawnTextSize, measureWithCleanup,
      Style.getJustification, Style.getLeading, h1, h2]
    ring_nf
    simp

/-- Witness for C6 amended at the concrete "justify" node. -/
theorem unknown_justification_amended_witness :
    (PointText._getMeasuredTextSize wView uNode).x = -10 := by
  have h := (unknown_justification_amended wView uNode ⟨0, 0, 0, 0⟩
    (by decide) (by decide)).1
  simpa [wView] using h

/-- One loop iteration of _draw in closed form: the shadow ends up
transparent exactly when a fill was painted, the cursor advances by the
leading, and the line contributes its events at the tail of the trace. -/
theorem drawLineStep_eq (hF hS : Bool) (amb : String) (l : ℚ) (i : Nat)
    (ctx : Ctx) :
    drawLineStep hF hS amb l i ctx =
      ⟨if hF then transparentShadow else amb,
       ctx.translationY + l,
       ctx.events ++ lineEvents hF hS amb i⟩ := by
  cases hF <;> cases hS <;>
    simp [drawLineStep, lineEvents]

/-- The trace of the line loop of _draw: each line of index below n
appends its own events, in order. -/
theorem draw_loop_events (hF hS : Bool) (amb : String) (l : ℚ) :
    ∀ (n : Nat) (ctx : Ctx),
      ((List.range n).foldl (fun c i => drawLineStep hF hS amb l i c)
          ctx).events =
        ctx.events ++ (List.range n).flatMap (lineEvents hF hS amb) := by
  intro n
  induction n with
  | zero => intro ctx; simp
  | succ k ih =>
    intro ctx
    rw [List.range_succ, List.foldl_append, List.flatMap_append]
    rw [List.foldl_cons, List.foldl_nil, drawLineStep_eq]
    simp [ih, List.append_assoc]

/-- C7: on nonempty content, _draw emits, line by line, a trace in which
the ambient shadow is in force for the first paint operation of each
line, the stroke pass of a line that also fills is painted with the
transparent shadow, and at most one paint operation per line carries a
non-transparent shadow. -/
theorem draw_shadow_protocol (t : PointText) (ctx : Ctx)
    (hne : t._content ≠ "") :
    (PointText._draw t ctx).events =
      ctx.events ++ (List.range t._lines.length).flatMap
        (lineEvents t._style.hasFill t._style.hasStroke ctx.shadowColor) ∧
    (∀ i e, (lineEvents t._style.hasFill t._style.hasStroke
        ctx.shadowColor i).head? = some e → e.shadow = ctx.shadowColor) ∧
    (∀ i e, t._style.hasFill = true →
      e ∈ lineEvents t._style.hasFill t._style.hasStroke ctx.shadowColor i →
      e.kind = PaintKind.stroke → e.shadow = transparentShadow) ∧
    (∀ i, ((lineEvents t._style.hasFill t._style.hasStroke
        ctx.shadowColor i).countP
          (fun e => e.shadow != transparentShadow)) ≤ 1) := by
  refine ⟨?_, ?_, ?_, ?_⟩
  · unfold PointText._draw
    rw [if_neg hne]
    exact draw_loop_events t._style.hasFill t._style.hasStroke
      ctx.shadowColor t._style.getLeading t._lines.length ctx
  · intro i e h
    cases hf : t._style.hasFill <;> cases hs : t._style.hasStroke
    · simp [lineEvents, hf, hs] at h
    · simp [lineEvents, hf, hs] at h
      subst h
      rfl
    · simp [lineEvents, hf, hs] at h
      subst h
      rfl
    · simp [lineEvents, hf, hs] at h
      subst h
      rfl
  · intro i e hf hmem hk
    cases hs : t._style.hasStroke
    · simp [lineEvents, hf, hs] at hmem
      subst hmem
      simp at hk
    · simp [lineEvents, hf, hs] at hmem
      rcases hmem with h1 | h1 <;> subst h1
      · simp at hk
      · simp
  · intro i
    cases hf : t._style.hasFill <;> cases hs : t._style.hasStroke
    · simp [lineEvents, hf, hs]
    · simp [lineEvents, hf, hs, List.countP_cons, List.countP_nil]
      split <;> simp
    · simp [lineEvents, hf, hs, List.countP_cons, List.countP_nil]
      split <;> simp
    · simp [lineEvents, hf, hs, List.countP_cons, List.countP_nil]
      split <;> simp

/-- Witness for C7: drawing a one-line node that both fills and strokes,
with ambient shadow "red", paints the fill under the ambient shadow and
the stroke under the transparent shadow. -/
theorem draw_shadow_protocol_witness :
    (PointText._draw (cNode3 0) ⟨"red", 0, []⟩).events =
      [⟨0, PaintKind.fill, "red"⟩,
       ⟨0, PaintKind.stroke, transparentShadow⟩] := by
  have h := (draw_shadow_protocol (cNode3 0) ⟨"red", 0, []⟩ (by decide)).1
  rw [h]
  decide

end PointTextVerify
